import Mathlib

/-!
Shallow embedding of `src/main.rs` of the wunderground proxy cache:
an in-memory TTL cache (`HashMap<String, CachedEntry>` behind a lock)
with read-through handlers `current` and `forecast`, plus the startup
configuration loader `load_config`.

Time is modelled by a monotonic `Instant` counted in nanoseconds, as in
Rust's `std::time::Instant`; `Duration::as_secs` truncates to whole
seconds, which is `Nat` division by `10^9` here. JSON payloads
(`serde_json::Value`) are modelled by the inductive `Json`. The shared
`HashMap` is modelled as an association list with at most one binding
per key (`Cache.insert` replaces any previous binding, as
`HashMap::insert` does). A handler invocation is modelled as a pure
function of the cache contents, the observation time of the lookup, the
outcome of the (at most one) upstream fetch, and the time at which a
successful fetch result is stored; its result records the HTTP response
body (`none` models the abrupt termination caused by `.unwrap()` on a
failed fetch), the resulting cache, and how many upstream fetches were
issued.
-/

/-- Model of `serde_json::Value`: an arbitrary JSON tree. -/
inductive Json where
  | null : Json
  | bool (b : Bool) : Json
  | num (n : Int) : Json
  | str (s : String) : Json
  | arr (elems : List Json) : Json
  | obj (fields : List (String × Json)) : Json

/-- Model of `std::time::Instant`: a monotonic clock reading, in nanoseconds. -/
structure Instant where
  nanos : Nat
deriving DecidableEq

/-- Nanoseconds per second, the divisor used by `Duration::as_secs`. -/
def nsPerSec : Nat := 1000000000

/-- Model of `entry.fetched_at.elapsed().as_secs()` observed at time `now`:
the elapsed duration truncated to whole seconds. Rust's `Duration`
subtraction of `Instant`s saturates at zero, as `Nat` subtraction does. -/
def Instant.elapsedSecs (fetched now : Instant) : Nat :=
  (now.nanos - fetched.nanos) / nsPerSec

/-- Model of `struct CachedEntry { value: Value, fetched_at: Instant }`. -/
structure CachedEntry where
  value : Json
  fetched_at : Instant

/-- Model of the shared `HashMap<String, CachedEntry>`: an association list
holding at most one binding per key. -/
abbrev Cache := List (String × CachedEntry)

/-- Model of `HashMap::get`: the entry bound to `key`, if any. -/
def Cache.get : Cache → String → Option CachedEntry
  | [], _ => none
  | (k, e) :: rest, key => if k = key then some e else Cache.get rest key

/-- Model of `HashMap::insert`: bind `key` to `e`, replacing any previous
binding of `key` and leaving every other binding unchanged. -/
def Cache.insert (c : Cache) (key : String) (e : CachedEntry) : Cache :=
  (key, e) :: c.filter (fun p => p.1 ≠ key)

/-- Number of bindings a cache holds for a given key (map semantics demand
this is at most one). -/
def Cache.countKey (c : Cache) (key : String) : Nat :=
  (c.filter (fun p => p.1 = key)).length

/-- The freshness predicate both handlers pass to `.filter(...)`:
`entry.fetched_at.elapsed().as_secs() < state.config.cache_duration_secs`. -/
def freshFilter (entry : CachedEntry) (ttl : Nat) (now : Instant) : Bool :=
  Instant.elapsedSecs entry.fetched_at now < ttl

/-- The lookup both handlers perform under the read lock:
`cached_entry.get(key).cloned().filter(|entry| ...)` — the entry bound to
`key`, kept only when the freshness filter accepts it at time `now`. -/
def lookupFresh (cache : Cache) (key : String) (ttl : Nat) (now : Instant) :
    Option CachedEntry :=
  match cache.get key with
  | some entry => if freshFilter entry ttl now then some entry else none
  | none => none

/-- Outcome of the single upstream fetch a handler may issue
(`fetch_current_json` / `fetch_forecast_json`): a parsed JSON payload, or
an opaque failure (network error, timeout, non-JSON body). -/
inductive FetchResult where
  | success (v : Json) : FetchResult
  | failure : FetchResult

/-- Result of one handler invocation: the response body (`none` models the
abrupt termination caused by `.unwrap()` on a failed fetch), the cache
contents afterwards, and how many upstream fetches were issued. -/
structure HandlerOutcome where
  response : Option Json
  cache : Cache
  fetchCount : Nat

/-- The read-through body shared verbatim by the `current` and `forecast`
handlers in `src/main.rs`: look `key` up under the read lock at time
`tLookup`, filtered for freshness; on a hit answer the cached value and
touch nothing; otherwise fetch upstream — on success insert
`{ value: json, fetched_at: Instant::now() }` (the write time `tStore`)
and answer the fetched value, on failure `.unwrap()` aborts the request
with no cache write. -/
def handleRequest (cache : Cache) (key : String) (ttl : Nat)
    (tLookup : Instant) (fetch : FetchResult) (tStore : Instant) :
    HandlerOutcome :=
  match lookupFresh cache key ttl tLookup with
  | some cachedValue => ⟨some cachedValue.value, cache, 0⟩
  | none =>
    match fetch with
    | .success json => ⟨some json, cache.insert key ⟨json, tStore⟩, 1⟩
    | .failure => ⟨none, cache, 1⟩

/-- Modelled from the spec: the constant `CURRENT` lives in the repo's
`constants` module, which is not under `src/`; the spec's scenario
`put("current", ...)` fixes its value. -/
def CURRENT : String := "current"

/-- Modelled from the spec: the constant `FORECAST` lives in the repo's
`constants` module, which is not under `src/`; the spec's scenario keys
`forecast_2614,48_en-US` fix its value. -/
def FORECAST : String := "forecast"

/-- The forecast cache key of `src/main.rs`:
`format!("{FORECAST}_{geocode}_{language}")`. -/
def forecastCacheKey (geocode language : String) : String :=
  FORECAST ++ "_" ++ geocode ++ "_" ++ language

/-- The `current` handler: the read-through body at the constant key. -/
def current (cache : Cache) (ttl : Nat) (tLookup : Instant)
    (fetch : FetchResult) (tStore : Instant) : HandlerOutcome :=
  handleRequest cache CURRENT ttl tLookup fetch tStore

/-- The `forecast` handler: the read-through body at the key derived from
the `geocode` and `language` query parameters. -/
def forecast (cache : Cache) (geocode language : String) (ttl : Nat)
    (tLookup : Instant) (fetch : FetchResult) (tStore : Instant) :
    HandlerOutcome :=
  handleRequest cache (forecastCacheKey geocode language) ttl tLookup
    fetch tStore

/-- Model of Rust's `str::parse::<u64>()`: an optional leading `+`
followed by at least one ASCII digit, value within `u64` range;
anything else fails. -/
def parseU64 (s : String) : Option Nat :=
  let cs := match s.data with
    | '+' :: rest => rest
    | other => other
  if cs = [] then none
  else if cs.all Char.isDigit then
    let n := cs.foldl (fun acc c => acc * 10 + (c.toNat - 48)) 0
    if n < 2 ^ 64 then some n else none
  else none

/-- Model of `struct AppConfig` of `src/main.rs`. -/
structure AppConfig where
  cache_duration_secs : Nat
  pws_id : String
  api_key : String
deriving DecidableEq

/-- Modelled from the spec: the environment-variable name constants live in
the repo's `constants` module, which is not under `src/`; the spec names
the variables `CACHE_DURATION_SECS`, `PWS_ID` and `API_KEY`. -/
def CACHE_DURATION_SECS_VAR : String := "CACHE_DURATION_SECS"

/-- Modelled from the spec: see `CACHE_DURATION_SECS_VAR`. -/
def PWS_ID_VAR : String := "PWS_ID"

/-- Modelled from the spec: see `CACHE_DURATION_SECS_VAR`. -/
def API_KEY_VAR : String := "API_KEY"

/-- Model of `load_config` of `src/main.rs`, over an environment mapping
variable names to values. Each `.expect(...)` that would abort the process
(missing variable, or `CACHE_DURATION_SECS` failing to parse as a `u64`)
is modelled as `none`; `main` runs `load_config` before binding the
listener, so `none` means no traffic is ever served. -/
def load_config (env : String → Option String) : Option AppConfig :=
  match env CACHE_DURATION_SECS_VAR with
  | none => none
  | some raw_cache_duration_secs =>
    match parseU64 raw_cache_duration_secs with
    | none => none
    | some cache_duration_secs =>
      match env PWS_ID_VAR with
      | none => none
      | some pws_id =>
        match env API_KEY_VAR with
        | none => none
        | some api_key => some ⟨cache_duration_secs, pws_id, api_key⟩

/-! Helper lemmas about the cache model, shared by several claims. -/

theorem Cache.get_filter_ne (c : Cache) (key k' : String) (h : k' ≠ key) :
    Cache.get (c.filter (fun p => p.1 ≠ key)) k' = c.get k' := by
  induction c with
  | nil => rfl
  | cons p rest ih =>
    obtain ⟨k, e⟩ := p
    rw [List.filter_cons]
    simp only [ne_eq, decide_not] at ih ⊢
    by_cases hk : k = key
    · subst hk
      simp [Cache.get, ih, Ne.symm h]
    · simp [Cache.get, hk, ih]

theorem Cache.get_insert_self (c : Cache) (key : String) (e : CachedEntry) :
    (c.insert key e).get key = some e := by
  simp [Cache.insert, Cache.get]

theorem Cache.get_insert_ne (c : Cache) (key k' : String) (e : CachedEntry)
    (h : k' ≠ key) : (c.insert key e).get k' = c.get k' := by
  have hstep :
      Cache.get ((key, e) :: c.filter (fun p => p.1 ≠ key)) k' =
        if key = k' then some e
        else Cache.get (c.filter (fun p => p.1 ≠ key)) k' := rfl
  rw [Cache.insert, hstep, if_neg (Ne.symm h)]
  exact Cache.get_filter_ne c key k' h

theorem lookupFresh_eq_get (cache : Cache) (key : String) (ttl : Nat)
    (now : Instant) (e : CachedEntry)
    (h : lookupFresh cache key ttl now = some e) :
    cache.get key = some e ∧ freshFilter e ttl now = true := by
  unfold lookupFresh at h
  split at h
  next e' hg =>
    split at h
    next hf =>
      cases h
      exact ⟨hg, hf⟩
    next hf => exact absurd h (by simp)
  next hg => exact absurd h (by simp)

theorem handleRequest_frame (cache : Cache) (key k' : String) (ttl : Nat)
    (tLookup tStore : Instant) (fetch : FetchResult) (h : k' ≠ key) :
    (handleRequest cache key ttl tLookup fetch tStore).cache.get k' =
      cache.get k' := by
  unfold handleRequest
  cases lookupFresh cache key ttl tLookup with
  | some e => rfl
  | none =>
    cases fetch with
    | success v => exact Cache.get_insert_ne cache key k' ⟨v, tStore⟩ h
    | failure => rfl

/-- C1: the freshness check used by the handlers treats an entry as stale
iff `now - entry.fetchedAt ≥ ttlSeconds`, the elapsed time being truncated
to whole seconds before the comparison. -/
theorem C1_staleness_iff (entry : CachedEntry) (ttl : Nat) (now : Instant) :
    freshFilter entry ttl now = false ↔
      ttl ≤ (now.nanos - entry.fetched_at.nanos) / 1000000000 := by
  simp [freshFilter, Instant.elapsedSecs, nsPerSec, Nat.not_lt]

/-- C2 (counterexample): with the non-negative TTL `0`, an entry put at
time `0` is already stale for a get performed immediately (at the same
instant): the filtered lookup misses and the freshness filter rejects it,
contradicting the claim for arbitrary non-negative TTLs. -/
theorem C2_counterexample :
    lookupFresh (Cache.insert [] CURRENT ⟨Json.null, ⟨0⟩⟩) CURRENT 0 ⟨0⟩ =
        none ∧
      freshFilter ⟨Json.null, ⟨0⟩⟩ 0 ⟨0⟩ = false := by
  exact ⟨rfl, rfl⟩

/-- C2 (amended: the TTL must be positive): for every positive TTL, a get
immediately after a put finds the entry not stale, and the entry becomes
stale exactly at or after `ttlSeconds` have elapsed since the put, never
before. -/
theorem C2_ttl_correctness (cache : Cache) (key : String) (v : Json)
    (ttl : Nat) (tPut now : Instant) (httl : 0 < ttl)
    (hmono : tPut.nanos ≤ now.nanos) :
    lookupFresh (cache.insert key ⟨v, tPut⟩) key ttl tPut =
        some ⟨v, tPut⟩ ∧
      (freshFilter ⟨v, tPut⟩ ttl now = false ↔
        tPut.nanos + ttl * 1000000000 ≤ now.nanos) := by
  constructor
  · unfold lookupFresh
    simp only [Cache.get_insert_self]
    rw [if_pos]
    simp [freshFilter, Instant.elapsedSecs, Nat.sub_self, Nat.zero_div, httl]
  · simp only [freshFilter, Instant.elapsedSecs, nsPerSec,
      decide_eq_false_iff_not, Nat.not_lt]
    omega

/-- Witness for `C2_ttl_correctness` at TTL 60 seconds, put at instant 0,
observed at instant 61 s. -/
theorem C2_ttl_correctness_witness :
    lookupFresh (Cache.insert [] "current" ⟨Json.null, ⟨0⟩⟩) "current" 60
        ⟨0⟩ = some ⟨Json.null, ⟨0⟩⟩ ∧
      (freshFilter ⟨Json.null, ⟨0⟩⟩ 60 ⟨61000000000⟩ = false ↔
        (Instant.mk 0).nanos + 60 * 1000000000 ≤
          (Instant.mk 61000000000).nanos) :=
  C2_ttl_correctness [] "current" Json.null 60 ⟨0⟩ ⟨61000000000⟩
    (by decide) (by decide)

/-- C10: with a configured cache duration of 0 seconds, every lookup is a
miss — the freshness filter rejects every entry, even one written at the
same instant — so every request issues an upstream fetch. -/
theorem C10_zero_ttl_always_misses (cache : Cache) (key : String)
    (tLookup tStore : Instant) (fetch : FetchResult) :
    lookupFresh cache key 0 tLookup = none ∧
      (handleRequest cache key 0 tLookup fetch tStore).fetchCount = 1 := by
  have h : lookupFresh cache key 0 tLookup = none := by
    unfold lookupFresh
    cases cache.get key with
    | none => rfl
    | some e => simp [freshFilter]
  refine ⟨h, ?_⟩
  unfold handleRequest
  rw [h]
  cases fetch <;> rfl

theorem Cache.countKey_cons (k k' : String) (e : CachedEntry) (c : Cache) :
    Cache.countKey ((k, e) :: c) k' =
      (if k = k' then 1 else 0) + Cache.countKey c k' := by
  simp only [Cache.countKey, List.filter_cons]
  by_cases hk : k = k' <;> simp [hk, Nat.add_comm]

theorem Cache.countKey_filter_gone (c : Cache) (key : String) :
    Cache.countKey (c.filter (fun p => p.1 ≠ key)) key = 0 := by
  induction c with
  | nil => rfl
  | cons p rest ih =>
    obtain ⟨k, e⟩ := p
    rw [List.filter_cons]
    by_cases hk : k = key
    · subst hk
      rw [if_neg (by simp)]
      exact ih
    · rw [if_pos (by simp [hk]), Cache.countKey_cons, if_neg hk]
      simpa using ih

theorem Cache.countKey_insert_self (c : Cache) (key : String)
    (e : CachedEntry) : (c.insert key e).countKey key = 1 := by
  rw [Cache.insert, Cache.countKey_cons, if_pos rfl,
    Cache.countKey_filter_gone]

theorem Cache.countKey_insert_ne (c : Cache) (key k' : String)
    (e : CachedEntry) (h : k' ≠ key) :
    (c.insert key e).countKey k' = c.countKey k' := by
  rw [Cache.insert, Cache.countKey_cons, if_neg (Ne.symm h), Nat.zero_add]
  induction c with
  | nil => rfl
  | cons p rest ih =>
    obtain ⟨k, ee⟩ := p
    rw [List.filter_cons]
    by_cases hk : k = key
    · subst hk
      rw [Cache.countKey_cons, if_neg (Ne.symm h), Nat.zero_add,
        if_neg (by simp)]
      exact ih
    · rw [if_pos (by simp [hk]), Cache.countKey_cons, Cache.countKey_cons,
        ih]

/-- C6: a put of `v2` after a put of `v1` at the same key unconditionally
replaces the whole entry — a subsequent get returns exactly `v2` with the
second put's timestamp, never a merge — and the map keeps at most one
binding per key. -/
theorem C6_replacement (cache : Cache) (key : String) (v1 v2 : Json)
    (t1 t2 : Instant) (hinv : ∀ k, cache.countKey k ≤ 1) :
    ((cache.insert key ⟨v1, t1⟩).insert key ⟨v2, t2⟩).get key =
        some ⟨v2, t2⟩ ∧
      ((cache.insert key ⟨v1, t1⟩).insert key ⟨v2, t2⟩).countKey key = 1 ∧
      (∀ k, ((cache.insert key ⟨v1, t1⟩).insert key ⟨v2, t2⟩).countKey k
        ≤ 1) := by
  refine ⟨Cache.get_insert_self _ key ⟨v2, t2⟩,
    Cache.countKey_insert_self _ key ⟨v2, t2⟩, fun k => ?_⟩
  by_cases hk : k = key
  · subst hk
    exact Nat.le_of_eq (Cache.countKey_insert_self _ k ⟨v2, t2⟩)
  · rw [Cache.countKey_insert_ne _ key k ⟨v2, t2⟩ hk,
      Cache.countKey_insert_ne _ key k ⟨v1, t1⟩ hk]
    exact hinv k

/-- Witness for `C6_replacement`: two puts at key `"current"` into the
empty cache. -/
theorem C6_replacement_witness :
    ((Cache.insert [] "current" ⟨Json.null, ⟨0⟩⟩).insert "current"
          ⟨Json.str "new", ⟨5⟩⟩).get "current" =
        some ⟨Json.str "new", ⟨5⟩⟩ ∧
      ((Cache.insert [] "current" ⟨Json.null, ⟨0⟩⟩).insert "current"
          ⟨Json.str "new", ⟨5⟩⟩).countKey "current" = 1 ∧
      (∀ k, ((Cache.insert [] "current" ⟨Json.null, ⟨0⟩⟩).insert "current"
          ⟨Json.str "new", ⟨5⟩⟩).countKey k ≤ 1) :=
  C6_replacement [] "current" Json.null (Json.str "new") ⟨0⟩ ⟨5⟩
    (fun k => by simp [Cache.countKey])

/-- C4: on a miss (key absent or stale), a successful fetch of payload `v`
makes the handler store `{ value := v, fetched_at := tStore }` at the key
and answer exactly the fetched payload unmodified; the response body is
the value just stored. -/
theorem C4_miss_success_stores_and_returns (cache : Cache) (key : String)
    (ttl : Nat) (v : Json) (tLookup tStore : Instant)
    (hmiss : lookupFresh cache key ttl tLookup = none) :
    handleRequest cache key ttl tLookup (.success v) tStore =
        ⟨some v, cache.insert key ⟨v, tStore⟩, 1⟩ ∧
      (cache.insert key ⟨v, tStore⟩).get key = some ⟨v, tStore⟩ := by
  constructor
  · unfold handleRequest
    rw [hmiss]
  · exact Cache.get_insert_self cache key ⟨v, tStore⟩

/-- Witness for `C4_miss_success_stores_and_returns`: a cold key in the
empty cache. -/
theorem C4_miss_success_witness :
    handleRequest [] "current" 60 ⟨0⟩ (.success (Json.str "obs")) ⟨1⟩ =
        ⟨some (Json.str "obs"),
          Cache.insert [] "current" ⟨Json.str "obs", ⟨1⟩⟩, 1⟩ ∧
      (Cache.insert [] "current" ⟨Json.str "obs", ⟨1⟩⟩).get "current" =
        some ⟨Json.str "obs", ⟨1⟩⟩ :=
  C4_miss_success_stores_and_returns [] "current" 60 (Json.str "obs")
    ⟨0⟩ ⟨1⟩ rfl

/-- C5: when the upstream fetch fails on a miss, the handler terminates
abruptly (no response body is produced), writes nothing to the cache — no
negative entry — and every previously cached entry, under any key, is left
exactly as it was. -/
theorem C5_failure_no_cache_write (cache : Cache) (key : String)
    (ttl : Nat) (tLookup tStore : Instant)
    (hmiss : lookupFresh cache key ttl tLookup = none) :
    (handleRequest cache key ttl tLookup .failure tStore).response =
        none ∧
      (handleRequest cache key ttl tLookup .failure tStore).cache =
        cache ∧
      (∀ k, (handleRequest cache key ttl tLookup .failure tStore).cache.get
        k = cache.get k) := by
  have h : handleRequest cache key ttl tLookup .failure tStore =
      ⟨none, cache, 1⟩ := by
    unfold handleRequest
    rw [hmiss]
  rw [h]
  exact ⟨rfl, rfl, fun k => rfl⟩

/-- Witness for `C5_failure_no_cache_write`: a stale entry (TTL 0) whose
re-fetch fails stays exactly as it was. -/
theorem C5_failure_witness :
    (handleRequest [("current", ⟨Json.null, ⟨0⟩⟩)] "current" 0 ⟨7⟩
          .failure ⟨8⟩).response = none ∧
      (handleRequest [("current", ⟨Json.null, ⟨0⟩⟩)] "current" 0 ⟨7⟩
          .failure ⟨8⟩).cache = [("current", ⟨Json.null, ⟨0⟩⟩)] ∧
      (∀ k, (handleRequest [("current", ⟨Json.null, ⟨0⟩⟩)] "current" 0 ⟨7⟩
          .failure ⟨8⟩).cache.get k =
        Cache.get [("current", ⟨Json.null, ⟨0⟩⟩)] k) :=
  C5_failure_no_cache_write [("current", ⟨Json.null, ⟨0⟩⟩)] "current" 0
    ⟨7⟩ ⟨8⟩ rfl

theorem handleRequest_hit (c : Cache) (key : String) (ttl : Nat)
    (e : CachedEntry) (t tw : Instant) (f : FetchResult)
    (hl : lookupFresh c key ttl t = some e) :
    handleRequest c key ttl t f tw = ⟨some e.value, c, 0⟩ := by
  unfold handleRequest
  rw [hl]

/-- C3: a request for a key whose entry is present and fresh answers the
cached payload with no upstream fetch and no cache change; consequently
two request cycles on the same key, the second within the TTL window of
the entry left by the first, fetch at most once in total and answer
identical payloads. -/
theorem C3_cache_hit_idempotence (cache : Cache) (key : String) (ttl : Nat)
    (t1 t2 tw1 tw2 : Instant) (f1 f2 : FetchResult) :
    (∀ e, lookupFresh cache key ttl t1 = some e →
      handleRequest cache key ttl t1 f1 tw1 = ⟨some e.value, cache, 0⟩) ∧
    (∀ e2, (handleRequest cache key ttl t1 f1 tw1).response.isSome = true →
      (handleRequest cache key ttl t1 f1 tw1).cache.get key = some e2 →
      freshFilter e2 ttl t2 = true →
      (handleRequest (handleRequest cache key ttl t1 f1 tw1).cache key ttl
          t2 f2 tw2).response =
        (handleRequest cache key ttl t1 f1 tw1).response ∧
      (handleRequest (handleRequest cache key ttl t1 f1 tw1).cache key ttl
          t2 f2 tw2).fetchCount = 0 ∧
      (handleRequest cache key ttl t1 f1 tw1).fetchCount +
        (handleRequest (handleRequest cache key ttl t1 f1 tw1).cache key
          ttl t2 f2 tw2).fetchCount ≤ 1) := by
  refine ⟨fun e he => handleRequest_hit cache key ttl e t1 tw1 f1 he,
    fun e2 hresp hget hfresh => ?_⟩
  cases hl1 : lookupFresh cache key ttl t1 with
  | some e1 =>
    have hg1 := (lookupFresh_eq_get cache key ttl t1 e1 hl1).1
    have h1 := handleRequest_hit cache key ttl e1 t1 tw1 f1 hl1
    rw [h1] at hget ⊢
    have hget' : cache.get key = some e2 := hget
    have heq : some e1 = some e2 := hg1.symm.trans hget'
    injection heq with heq
    subst heq
    have hl2 : lookupFresh cache key ttl t2 = some e1 := by
      unfold lookupFresh
      rw [hg1]
      simp [hfresh]
    have h2 := handleRequest_hit cache key ttl e1 t2 tw2 f2 hl2
    show (handleRequest cache key ttl t2 f2 tw2).response =
        some e1.value ∧
      (handleRequest cache key ttl t2 f2 tw2).fetchCount = 0 ∧
      0 + (handleRequest cache key ttl t2 f2 tw2).fetchCount ≤ 1
    rw [h2]
    exact ⟨rfl, rfl, by norm_num⟩
  | none =>
    cases f1 with
    | success v =>
      have h1 : handleRequest cache key ttl t1 (.success v) tw1 =
          ⟨some v, cache.insert key ⟨v, tw1⟩, 1⟩ := by
        unfold handleRequest
        rw [hl1]
      rw [h1] at hget ⊢
      have hget' : (cache.insert key ⟨v, tw1⟩).get key = some e2 := hget
      rw [Cache.get_insert_self] at hget'
      injection hget' with heq
      subst heq
      have hl2 : lookupFresh (cache.insert key ⟨v, tw1⟩) key ttl t2 =
          some ⟨v, tw1⟩ := by
        unfold lookupFresh
        rw [Cache.get_insert_self]
        simp [hfresh]
      have h2 := handleRequest_hit (cache.insert key ⟨v, tw1⟩) key ttl
        ⟨v, tw1⟩ t2 tw2 f2 hl2
      show (handleRequest (cache.insert key ⟨v, tw1⟩) key ttl t2 f2
            tw2).response = some v ∧
        (handleRequest (cache.insert key ⟨v, tw1⟩) key ttl t2 f2
          tw2).fetchCount = 0 ∧
        1 + (handleRequest (cache.insert key ⟨v, tw1⟩) key ttl t2 f2
          tw2).fetchCount ≤ 1
      rw [h2]
      exact ⟨rfl, rfl, by norm_num⟩
    | failure =>
      have h1 : handleRequest cache key ttl t1 .failure tw1 =
          ⟨none, cache, 1⟩ := by
        unfold handleRequest
        rw [hl1]
      rw [h1] at hresp
      have hnone : (none : Option Json).isSome = true := hresp
      simp at hnone

/-- Witness for `C3_cache_hit_idempotence`: a fresh entry at key `"k"`,
both cycles given a failing fetcher — neither cycle needs it. -/
theorem C3_cache_hit_idempotence_witness :
    (handleRequest [("k", ⟨Json.str "w", ⟨0⟩⟩)] "k" 5 ⟨0⟩ .failure ⟨0⟩ =
        ⟨some (Json.str "w"), [("k", ⟨Json.str "w", ⟨0⟩⟩)], 0⟩) ∧
      ((handleRequest (handleRequest [("k", ⟨Json.str "w", ⟨0⟩⟩)] "k" 5
            ⟨0⟩ .failure ⟨0⟩).cache "k" 5 ⟨1⟩ .failure ⟨1⟩).response =
          (handleRequest [("k", ⟨Json.str "w", ⟨0⟩⟩)] "k" 5 ⟨0⟩ .failure
            ⟨0⟩).response ∧
        (handleRequest (handleRequest [("k", ⟨Json.str "w", ⟨0⟩⟩)] "k" 5
            ⟨0⟩ .failure ⟨0⟩).cache "k" 5 ⟨1⟩ .failure ⟨1⟩).fetchCount =
          0 ∧
        (handleRequest [("k", ⟨Json.str "w", ⟨0⟩⟩)] "k" 5 ⟨0⟩ .failure
            ⟨0⟩).fetchCount +
          (handleRequest (handleRequest [("k", ⟨Json.str "w", ⟨0⟩⟩)] "k" 5
            ⟨0⟩ .failure ⟨0⟩).cache "k" 5 ⟨1⟩ .failure ⟨1⟩).fetchCount ≤
          1) :=
  ⟨(C3_cache_hit_idempotence [("k", ⟨Json.str "w", ⟨0⟩⟩)] "k" 5 ⟨0⟩ ⟨1⟩
      ⟨0⟩ ⟨1⟩ .failure .failure).1 ⟨Json.str "w", ⟨0⟩⟩ rfl,
    (C3_cache_hit_idempotence [("k", ⟨Json.str "w", ⟨0⟩⟩)] "k" 5 ⟨0⟩ ⟨1⟩
      ⟨0⟩ ⟨1⟩ .failure .failure).2 ⟨Json.str "w", ⟨0⟩⟩ rfl rfl rfl⟩

/-- C7 (counterexample): the two distinct forecast parameter combinations
`("a_b", "c")` and `("a", "b_c")` derive the same cache key, so populating
the cache for the first satisfies a lookup for the second: the second
request answers the first combination's payload with no upstream fetch
(its fetcher is even failing), contradicting the claim's clause that one
combination never satisfies a lookup for a different one. -/
theorem C7_counterexample :
    (forecast (forecast [] "a_b" "c" 10 ⟨0⟩ (.success (Json.str "w"))
          ⟨0⟩).cache "a" "b_c" 10 ⟨0⟩ .failure ⟨0⟩).response =
        some (Json.str "w") ∧
      (forecast (forecast [] "a_b" "c" 10 ⟨0⟩ (.success (Json.str "w"))
          ⟨0⟩).cache "a" "b_c" 10 ⟨0⟩ .failure ⟨0⟩).fetchCount = 0 :=
  ⟨rfl, rfl⟩

/-- C7 (amended: parameter combinations must derive distinct keys — the
underscore-joined key is not injective): a put or a handler write on key A
neither observes nor changes the entry stored under a different key B, and
populating the forecast cache for one parameter combination leaves the
entry under any combination deriving a different key unchanged. -/
theorem C7_key_isolation (cache : Cache) (kA kB : String)
    (e : CachedEntry) (ttl : Nat) (tLookup tStore : Instant)
    (fetch : FetchResult) (hne : kA ≠ kB) :
    (cache.insert kA e).get kB = cache.get kB ∧
      (handleRequest cache kA ttl tLookup fetch tStore).cache.get kB =
        cache.get kB ∧
      (∀ g1 l1 g2 l2,
        forecastCacheKey g1 l1 ≠ forecastCacheKey g2 l2 →
        (forecast cache g1 l1 ttl tLookup fetch tStore).cache.get
            (forecastCacheKey g2 l2) =
          cache.get (forecastCacheKey g2 l2)) := by
  refine ⟨Cache.get_insert_ne cache kA kB e (Ne.symm hne),
    handleRequest_frame cache kA kB ttl tLookup tStore fetch
      (Ne.symm hne), fun g1 l1 g2 l2 hkeys => ?_⟩
  exact handleRequest_frame cache (forecastCacheKey g1 l1)
    (forecastCacheKey g2 l2) ttl tLookup tStore fetch (Ne.symm hkeys)

/-- Witness for `C7_key_isolation`: a write under `"current"` leaves the
entry under the spec's scenario key `forecast_2614,48_en-US` untouched,
and populating `("2614,48", "en-US")` leaves `("2614,48", "fr-FR")`
untouched. -/
theorem C7_key_isolation_witness :
    (Cache.insert [] "current" ⟨Json.null, ⟨0⟩⟩).get
        "forecast_2614,48_en-US" =
      Cache.get [] "forecast_2614,48_en-US" ∧
    (handleRequest [] "current" 60 ⟨0⟩ (.success Json.null) ⟨0⟩).cache.get
        "forecast_2614,48_en-US" =
      Cache.get [] "forecast_2614,48_en-US" ∧
    (∀ g1 l1 g2 l2,
      forecastCacheKey g1 l1 ≠ forecastCacheKey g2 l2 →
      (forecast [] g1 l1 60 ⟨0⟩ (.success Json.null) ⟨0⟩).cache.get
          (forecastCacheKey g2 l2) =
        Cache.get [] (forecastCacheKey g2 l2)) :=
  C7_key_isolation [] "current" "forecast_2614,48_en-US" ⟨Json.null, ⟨0⟩⟩
    60 ⟨0⟩ ⟨0⟩ (.success Json.null) (by decide)

/-- C8 (counterexample): the underscore-joined forecast key does not
uniquely identify the parameter pair — the distinct pairs `("a_b", "c")`
and `("a", "b_c")` derive the same key. -/
theorem C8_counterexample :
    forecastCacheKey "a_b" "c" = forecastCacheKey "a" "b_c" ∧
      ("a_b", "c") ≠ (("a", "b_c") : String × String) := by
  exact ⟨rfl, by decide⟩

theorem underscore_split_inj (a1 : List Char) (b1 : List Char)
    (a2 : List Char) (b2 : List Char) (h1 : '_' ∉ a1) (h2 : '_' ∉ a2)
    (h : a1 ++ '_' :: b1 = a2 ++ '_' :: b2) : a1 = a2 ∧ b1 = b2 := by
  induction a1 generalizing a2 with
  | nil =>
    cases a2 with
    | nil => simpa using h
    | cons c cs =>
      rw [List.nil_append, List.cons_append] at h
      injection h with hc _
      exact absurd (by rw [hc]; exact List.mem_cons_self c cs) h2
  | cons c cs ih =>
    cases a2 with
    | nil =>
      rw [List.nil_append, List.cons_append] at h
      injection h with hc _
      exact absurd (by rw [← hc]; exact List.mem_cons_self c cs) h1
    | cons d ds =>
      rw [List.cons_append, List.cons_append] at h
      injection h with hc htail
      subst hc
      have h1' : '_' ∉ cs := fun hm => h1 (List.mem_cons_of_mem c hm)
      have h2' : '_' ∉ ds := fun hm => h2 (List.mem_cons_of_mem c hm)
      obtain ⟨ha, hb⟩ := ih ds h1' h2' htail
      exact ⟨by rw [ha], hb⟩

/-- C8 (amended: parameter values must be underscore-free, since the
underscore-joined key is otherwise not injective): the forecast cache key
is derived deterministically as resource name, geocode and language
concatenated with underscore separators, and for underscore-free geocodes
the derivation is injective — two parameter pairs deriving the same key
are equal. -/
theorem C8_forecast_key_derivation (g1 l1 g2 l2 : String)
    (hg1 : '_' ∉ g1.data) (hg2 : '_' ∉ g2.data)
    (heq : forecastCacheKey g1 l1 = forecastCacheKey g2 l2) :
    (∀ g l : String, forecastCacheKey g l =
        FORECAST ++ "_" ++ g ++ "_" ++ l) ∧
      g1 = g2 ∧ l1 = l2 := by
  refine ⟨fun g l => rfl, ?_⟩
  have hdata := congrArg String.data heq
  simp only [forecastCacheKey, String.data_append] at hdata
  have hdata2 : FORECAST.data ++ ('_' :: (g1.data ++ '_' :: l1.data)) =
      FORECAST.data ++ ('_' :: (g2.data ++ '_' :: l2.data)) := by
    simpa [List.append_assoc] using hdata
  have hdata' : g1.data ++ '_' :: l1.data = g2.data ++ '_' :: l2.data := by
    have h := List.append_cancel_left hdata2
    simpa using h
  obtain ⟨ha, hb⟩ := underscore_split_inj g1.data l1.data g2.data l2.data
    hg1 hg2 hdata'
  exact ⟨String.ext ha, String.ext hb⟩

/-- Witness for `C8_forecast_key_derivation` at the spec's scenario
parameters `("2614,48", "en-US")`. -/
theorem C8_forecast_key_derivation_witness :
    (∀ g l : String, forecastCacheKey g l =
        FORECAST ++ "_" ++ g ++ "_" ++ l) ∧
      ("2614,48" : String) = "2614,48" ∧ ("en-US" : String) = "en-US" :=
  C8_forecast_key_derivation "2614,48" "en-US" "2614,48" "en-US"
    (by decide) (by decide) rfl

/-- C9: configuration loading aborts (before any traffic is served) iff
one of the required environment variables `CACHE_DURATION_SECS`, `PWS_ID`,
`API_KEY` is missing or `CACHE_DURATION_SECS` fails to parse as a
non-negative (`u64`) integer; when all are present and well-formed the
resulting config holds exactly the parsed TTL and the two strings. -/
theorem C9_load_config_characterization (env : String → Option String) :
    (load_config env = none ↔
      env CACHE_DURATION_SECS_VAR = none ∨
      (∃ raw, env CACHE_DURATION_SECS_VAR = some raw ∧
        parseU64 raw = none) ∨
      env PWS_ID_VAR = none ∨ env API_KEY_VAR = none) ∧
    (∀ raw n pws key, env CACHE_DURATION_SECS_VAR = some raw →
      parseU64 raw = some n → env PWS_ID_VAR = some pws →
      env API_KEY_VAR = some key →
      load_config env = some ⟨n, pws, key⟩) := by
  constructor
  · unfold load_config
    cases h1 : env CACHE_DURATION_SECS_VAR with
    | none => simp [h1]
    | some raw =>
      cases h2 : parseU64 raw with
      | none => simp [h1, h2]
      | some n =>
        cases h3 : env PWS_ID_VAR with
        | none => simp [h1, h2, h3]
        | some pws =>
          cases h4 : env API_KEY_VAR with
          | none => simp [h1, h2, h3, h4]
          | some key => simp [h1, h2, h3, h4]
  · intro raw n pws key h1 h2 h3 h4
    unfold load_config
    rw [h1]
    simp only [h2, h3, h4]

/-- Witness for `C9_load_config_characterization`: a fully populated
environment yields exactly the parsed TTL and the two strings. -/
theorem C9_load_config_witness :
    load_config (fun s =>
        if s = "CACHE_DURATION_SECS" then some "60"
        else if s = "PWS_ID" then some "KWAW001"
        else if s = "API_KEY" then some "secretkey" else none) =
      some ⟨60, "KWAW001", "secretkey"⟩ :=
  (C9_load_config_characterization (fun s =>
      if s = "CACHE_DURATION_SECS" then some "60"
      else if s = "PWS_ID" then some "KWAW001"
      else if s = "API_KEY" then some "secretkey" else none)).2
    "60" 60 "KWAW001" "secretkey" rfl (by decide) rfl rfl
